import Mathlib

/-!
Verification of the Mutual-Fund-Allocation-Tracker core (`2.py`) against its
natural-language specification.

The Python program is shallowly embedded: floats become rationals, pandas
DataFrames become a `Table` of `Cell` rows, the JSON persisted state becomes a
`J` value, exceptions become `Except` errors, and the external world (file
existence, write success) becomes explicit boolean parameters.
-/

namespace Tracker

/-! ## Cells and tables (the pandas DataFrame produced by read_excel) -/

/-- One spreadsheet cell: missing (NaN), a number, or a string. -/
inductive Cell where
  | na : Cell
  | num : ℚ → Cell
  | str : String → Cell
deriving DecidableEq, Repr

/-- The parsed spreadsheet: a column count and the data rows, as the
DataFrame that `pd.read_excel` hands to `process_excel_data`. -/
structure Table where
  cols : Nat
  rows : List (List Cell)
deriving Repr

/-- Python `pd.notna`. -/
def notna : Cell → Bool
  | .na => false
  | _ => true

/-- ASCII whitespace as matched by Python's regex class backslash-s
(space, tab, newline, carriage return, vertical tab, form feed). -/
def isPySpace (c : Char) : Bool :=
  c = ' ' || c = '\t' || c = '\n' || c = '\r' || c = '\x0b' || c = '\x0c'

/-- ASCII decimal digit, as matched by the digit class in the strptime regex. -/
def isPyDigit (c : Char) : Bool :=
  '0' ≤ c && c ≤ '9'

/-- Python `str.strip()`: drop leading and trailing whitespace. -/
def pyStrip (s : String) : String :=
  String.mk (((s.data.dropWhile isPySpace).reverse.dropWhile isPySpace).reverse)

/-- Python `str(cell)`: `str(nan)` is the literal text nan; strings are
returned as-is; numbers render via their decimal representation. -/
def cellStr : Cell → String
  | .na => "nan"
  | .num q => toString q
  | .str s => s

/-- Python `str.lower()` on the ASCII range. -/
def strLower (s : String) : String :=
  String.mk (s.data.map Char.toLower)

/-! ## Validator -/

/-- The fixed full English month names of the C locale, lowercased, exactly
the table `strptime` builds its month regex from. -/
def monthNames : List String :=
  ["january", "february", "march", "april", "may", "june",
   "july", "august", "september", "october", "november", "december"]

/-- Case-insensitive prefix match: strip `pre` (already lowercase) from the
front of `s`, comparing each character of `s` lowercased; return the rest. -/
def dropPrefixCI : List Char → List Char → Option (List Char)
  | s, [] => some s
  | [], _ :: _ => none
  | c :: s, d :: p => if c.toLower = d then dropPrefixCI s p else none

/-- The year directive of strptime: exactly four digits, and the resulting
year must be accepted by the `datetime` constructor, which rejects year
zero. -/
def yearDigits : List Char → Bool
  | [a, b, c, d] =>
    isPyDigit a && isPyDigit b && isPyDigit c && isPyDigit d &&
      !(a = '0' && b = '0' && c = '0' && d = '0')
  | _ => false

/-- The part of the strptime pattern after the month name: the format's
literal space matches a nonempty run of whitespace, then the four-digit year
ends the string. -/
def checkTail : List Char → Bool
  | [] => false
  | c :: rest => isPySpace c && yearDigits (rest.dropWhile isPySpace)

/-- `PortfolioDataValidator.validate_month_year`: `datetime.strptime(s, B-Y)`
succeeds iff a full month name (matched case-insensitively), a nonempty run of
whitespace, and a four-digit year of value at least 1 consume the whole
string. -/
def validate_month_year (s : String) : Bool :=
  monthNames.any (fun m =>
    match dropPrefixCI s.data m.data with
    | none => false
    | some rest => checkTail rest)

/-- The six canonical column names assigned by `process_excel_data`. -/
def assignedColumns : List String :=
  ["Name", "ISIN", "Industry", "Quantity", "MarketValue", "PercentNAV"]

/-- `PortfolioDataValidator.validate_excel_structure`: every required column
name occurs among the frame's column names. -/
def validate_excel_structure (cols : List String) : Bool :=
  ["Name", "ISIN", "Industry", "Quantity", "MarketValue", "PercentNAV"].all
    (fun c => cols.contains c)

/-! ## Holding records and the snapshot store -/

/-- One persisted holding: the entry built at lines 76-88 of the source, with
`MutualFundDetails` (name, isin, industry) and `MonthData` (quantity, market
value in lakhs, percent to NAV) flattened into one structure. -/
structure Entry where
  name : String
  isin : String
  industry : String
  quantity : ℚ
  marketValueInLakhs : ℚ
  pctToNAV : ℚ
deriving DecidableEq, Repr

/-- The identity part of an entry (the `MutualFundDetails` object). -/
structure FundDetails where
  name : String
  isin : String
  industry : String
deriving DecidableEq, Repr

/-- Project the fund details out of an entry. -/
def Entry.details (e : Entry) : FundDetails :=
  ⟨e.name, e.isin, e.industry⟩

/-- The in-memory store `self.data`: a Python dict from period label to the
period's list of entries, modelled as an association list in insertion
order. -/
abbrev Snapshot : Type := List (String × List Entry)

/-- Python `self.data.get(key)` / `key in self.data`: first (unique) binding. -/
def snapGet : Snapshot → String → Option (List Entry)
  | [], _ => none
  | (k, v) :: rest, key => if k = key then some v else snapGet rest key

/-- Python `self.data[key] = value`: overwrite the existing binding in place,
or append a new one. -/
def snapPut : Snapshot → String → List Entry → Snapshot
  | [], key, v => [(key, v)]
  | (k, v0) :: rest, key, v =>
      if k = key then (key, v) :: rest else (k, v0) :: snapPut rest key v

/-! ## Extraction (process_excel_data, lines 51-101) -/

/-- The error taxonomy of `process_excel_data`, one constructor per distinct
Python exception the body can raise into the surrounding handler. -/
inductive PErr where
  | invalidPeriod
  | fileNotFound
  | indexError
  | structureError
  | noData
deriving DecidableEq, Repr

/-- `df.iloc[6:, [2, 3, 4, 5, 6, 7]]`: pandas raises IndexError when any of
the positional column indexers is out of bounds, i.e. when the frame has
fewer than 8 columns; the row slice never fails (it may be empty). -/
def selectRegion (t : Table) : Except PErr (List (List Cell)) :=
  if t.cols < 8 then .error .indexError
  else .ok ((t.rows.drop 6).map (fun r =>
    [r.getD 2 .na, r.getD 3 .na, r.getD 4 .na, r.getD 5 .na, r.getD 6 .na, r.getD 7 .na]))

/-- Parse an unsigned digit string with an optional single decimal point into
a rational, the numeric grammar `pd.to_numeric` accepts for plain decimal
text. Returns none when there is no digit or the shape is wrong. -/
def parseDecimal (l : List Char) : Option ℚ :=
  let intPart := l.takeWhile isPyDigit
  let rest := l.dropWhile isPyDigit
  match rest with
  | [] => if intPart.isEmpty then none else
      some ((intPart.foldl (fun acc c => acc * 10 + (c.toNat - '0'.toNat)) 0 : ℕ) : ℚ)
  | '.' :: frac =>
      if frac.all isPyDigit && !(intPart.isEmpty && frac.isEmpty) then
        some (((intPart.foldl (fun acc c => acc * 10 + (c.toNat - '0'.toNat)) 0 : ℕ) : ℚ) +
          ((frac.foldl (fun acc c => acc * 10 + (c.toNat - '0'.toNat)) 0 : ℕ) : ℚ) / ((10 : ℚ) ^ frac.length))
      else none
  | _ => none

/-- Signed decimal text: optional leading sign, then `parseDecimal`. -/
def parseSigned (l : List Char) : Option ℚ :=
  match l with
  | '-' :: rest => (parseDecimal rest).map (fun q => -q)
  | '+' :: rest => parseDecimal rest
  | _ => parseDecimal l

/-- `pd.to_numeric(col, errors='coerce')` on one cell: numbers pass through,
missing stays missing, strings parse as (whitespace-stripped) signed decimal
text or coerce to NaN. -/
def toNumericCoerce : Cell → Cell
  | .na => .na
  | .num q => .num q
  | .str s =>
      match parseSigned (pyStrip s).data with
      | some q => .num q
      | none => .na

/-- The three `pd.to_numeric` column assignments of lines 70-71, applied to
one already-renamed row: positions 3, 4, 5 (Quantity, MarketValue,
PercentNAV) are coerced, name, ISIN and Industry are untouched. -/
def coerceRow (r : List Cell) : List Cell :=
  [r.getD 0 .na, r.getD 1 .na, r.getD 2 .na,
   toNumericCoerce (r.getD 3 .na), toNumericCoerce (r.getD 4 .na), toNumericCoerce (r.getD 5 .na)]

/-- `float(cell) if pd.notna(cell) else 0` on a coerced numeric cell. -/
def numOrZero : Cell → ℚ
  | .num q => q
  | _ => 0

/-- The loop body of lines 74-88 on one coerced row: emit an entry when the
ISIN cell is non-missing and its stripped string form is nonempty, otherwise
skip the row. -/
def mkEntry (r : List Cell) : Option Entry :=
  let isinC := r.getD 1 .na
  if notna isinC && pyStrip (cellStr isinC) ≠ "" then
    some { name := pyStrip (cellStr (r.getD 0 .na))
         , isin := pyStrip (cellStr isinC)
         , industry := pyStrip (cellStr (r.getD 2 .na))
         , quantity := numOrZero (r.getD 3 .na)
         , marketValueInLakhs := numOrZero (r.getD 4 .na)
         , pctToNAV := numOrZero (r.getD 5 .na) }
  else none

/-- The body of `process_excel_data` up to (excluding) the snapshot update:
validate the period label, check the file exists, slice the region, rename
and structure-check, drop all-missing rows, coerce the numeric columns, build
the entries, and fail when none result. `fileExists` stands for
`os.path.exists(excel_file)`. -/
def process_core (fileExists : Bool) (t : Table) (label : String) :
    Except PErr (List Entry) :=
  if !validate_month_year label then .error .invalidPeriod
  else if !fileExists then .error .fileNotFound
  else
    match selectRegion t with
    | .error err => .error err
    | .ok region =>
      if !validate_excel_structure assignedColumns then .error .structureError
      else
        let kept := region.filter (fun r => r.any notna)
        let month_data := (kept.map coerceRow).filterMap mkEntry
        if month_data.isEmpty then .error .noData
        else .ok month_data

/-- `process_excel_data` with its surrounding try/except: any error from the
core prints and returns false leaving the store untouched; on success the
period's binding is replaced wholesale and then `_save_data` runs, whose
outcome `saveOk` decides the returned boolean (a failed save still leaves the
new binding in `self.data`). -/
def process_excel_data (saveOk fileExists : Bool) (t : Table) (label : String)
    (snap : Snapshot) : Bool × Snapshot :=
  match process_core fileExists t label with
  | .error _ => (false, snap)
  | .ok month_data =>
      let snap' := snapPut snap label month_data
      if saveOk then (true, snap') else (false, snap')

/-! ## Change analysis (search_and_calculate_changes, lines 103-151) -/

/-- The error taxonomy of `search_and_calculate_changes`: the ValueError of
line 107 (invalid period label) and the KeyError of line 110 (period absent
from the store). -/
inductive SErr where
  | invalidPeriod
  | periodNotFound
deriving DecidableEq, Repr

/-- Result status: Existing, or New Addition when the holding has no
start-period counterpart. -/
inductive Status where
  | existing
  | newAddition
deriving DecidableEq, Repr

/-- One metric's change triple as built at lines 135-142. -/
structure Change where
  startValue : ℚ
  endValue : ℚ
  percentageChange : Option ℚ
deriving DecidableEq, Repr

/-- One element of the result list: fund details, status, and the per-metric
changes mapping (empty for new additions). -/
structure ChangeResult where
  details : FundDetails
  status : Status
  changes : List (String × Change)
deriving DecidableEq, Repr

/-- Distinct keys of a list in first-occurrence order, as a Python dict
comprehension orders its keys; `seen` accumulates the keys already taken. -/
def dictKeysAux : List String → List String → List String
  | [], _ => []
  | k :: rest, seen =>
      if seen.contains k then dictKeysAux rest seen
      else k :: dictKeysAux rest (k :: seen)

/-- The value a Python dict comprehension keyed by ISIN stores under `k`:
the last entry of the list with that ISIN (last write wins). -/
def lastFor (l : List Entry) (k : String) : Option Entry :=
  (l.filter (fun e => e.isin = k)).getLast?

/-- The dict comprehension of lines 113-114 flattened back to an entry list:
one entry per distinct ISIN, in first-occurrence order, taking the last
written entry for each ISIN. -/
def dictOfEntries (l : List Entry) : List Entry :=
  (dictKeysAux (l.map (fun e => e.isin)) []).filterMap (lastFor l)

/-- Python substring test `needle in hay` (the empty needle is contained in
everything). -/
def containsSub (needle : List Char) : List Char → Bool
  | [] => needle.isEmpty
  | c :: t => needle.isPrefixOf (c :: t) || containsSub needle t

/-- Lines 131-142: the change triple for one metric; the percentage is
computed only when the start value is nonzero, otherwise None. -/
def mkChange (startValue endValue : ℚ) : Change :=
  { startValue := startValue
  , endValue := endValue
  , percentageChange :=
      if startValue ≠ 0 then some ((endValue - startValue) / startValue * 100) else none }

/-- Lines 119-144 for one matching end-period entry: a New Addition with no
changes when the ISIN is absent from the start dict, otherwise Existing with
the three metric triples in source order. -/
def mkResult (startList : List Entry) (endItem : Entry) : ChangeResult :=
  match lastFor startList endItem.isin with
  | none => { details := endItem.details, status := .newAddition, changes := [] }
  | some st =>
      { details := endItem.details
      , status := .existing
      , changes :=
          [("Quantity", mkChange st.quantity endItem.quantity),
           ("MarketValueInLakhs", mkChange st.marketValueInLakhs endItem.marketValueInLakhs),
           ("%ToNAV", mkChange st.pctToNAV endItem.pctToNAV)] }

/-- The body of `search_and_calculate_changes` before its try/except: label
validation, period membership, dict building, the case-insensitive name
filter, and the per-holding result construction, in source order. -/
def search_core (snap : Snapshot) (fund_name start_month end_month : String) :
    Except SErr (List ChangeResult) :=
  if !(validate_month_year start_month && validate_month_year end_month) then
    .error .invalidPeriod
  else
    match snapGet snap start_month, snapGet snap end_month with
    | some startList, some endList =>
        .ok ((dictOfEntries endList).filterMap (fun endItem =>
          if containsSub (strLower fund_name).data (strLower endItem.name).data then
            some (mkResult startList endItem)
          else none))
    | _, _ => .error .periodNotFound

/-- `search_and_calculate_changes` with its surrounding try/except: any error
prints and returns None; success prints the analysis and returns the result
list. -/
def search_and_calculate_changes (snap : Snapshot) (fund_name start_month end_month : String) :
    Option (List ChangeResult) :=
  match search_core snap fund_name start_month end_month with
  | .ok results => some results
  | .error _ => none

/-! ## Persistence (_load_data and _save_data, lines 29-49) -/

/-- A JSON value, the content of the storage file. -/
inductive J where
  | jnull : J
  | jnum : ℚ → J
  | jstr : String → J
  | jarr : List J → J
  | jobj : List (String × J) → J

/-- The JSON object `json.dump` writes for one holding entry: the exact
two-level shape of lines 76-87. -/
def encodeEntry (e : Entry) : J :=
  .jobj [("MutualFundDetails",
            .jobj [("Name", .jstr e.name), ("ISIN", .jstr e.isin), ("Industry", .jstr e.industry)]),
         ("MonthData",
            .jobj [("Quantity", .jnum e.quantity),
                   ("MarketValueInLakhs", .jnum e.marketValueInLakhs),
                   ("%ToNAV", .jnum e.pctToNAV)])]

/-- The JSON document `_save_data` writes: the whole store as an object from
period label to array of entry objects. The write's success or failure is the
`saveOk` parameter of `process_excel_data`. -/
def _save_data (snap : Snapshot) : J :=
  .jobj (snap.map (fun p => (p.1, .jarr (p.2.map encodeEntry))))

/-- `_load_data`: `none` means the storage file does not exist (empty store),
`some none` means it exists but does not parse (warning, empty store), and
`some (some j)` is its parsed JSON content, returned as-is. -/
def _load_data : Option (Option J) → J
  | none => .jobj []
  | some none => .jobj []
  | some (some j) => j

/-- Read one holding entry back out of its JSON object; `none` on any shape
mismatch. Inverse of `encodeEntry`. -/
def decodeEntry : J → Option Entry
  | .jobj [("MutualFundDetails",
              .jobj [("Name", .jstr n), ("ISIN", .jstr i), ("Industry", .jstr ind)]),
           ("MonthData",
              .jobj [("Quantity", .jnum q), ("MarketValueInLakhs", .jnum m), ("%ToNAV", .jnum p)])] =>
      some { name := n, isin := i, industry := ind
           , quantity := q, marketValueInLakhs := m, pctToNAV := p }
  | _ => none

/-- Decode a JSON array elementwise into entries; `none` if any element is
malformed. -/
def decodeEntryList : List J → Option (List Entry)
  | [] => some []
  | j :: rest =>
      match decodeEntry j, decodeEntryList rest with
      | some e, some es => some (e :: es)
      | _, _ => none

/-- Decode the bindings of the top-level JSON object into a snapshot. -/
def decodePairs : List (String × J) → Option Snapshot
  | [] => some []
  | (k, .jarr js) :: rest =>
      match decodeEntryList js, decodePairs rest with
      | some es, some r => some ((k, es) :: r)
      | _, _ => none
  | (_, _) :: _ => none

/-- Read a whole snapshot back out of the persisted JSON document. -/
def decodeSnapshot : J → Option Snapshot
  | .jobj l => decodePairs l
  | _ => none

/-! ## Spec-side formulations used by the claim statements -/

/-- The capitalized full English month names, as the spec's fixed month-name
table. -/
def monthNamesCap : List String :=
  ["January", "February", "March", "April", "May", "June",
   "July", "August", "September", "October", "November", "December"]

/-- Exact (case-sensitive) prefix removal. -/
def dropPrefixExact : List Char → List Char → Option (List Char)
  | s, [] => some s
  | [], _ :: _ => none
  | c :: s, d :: p => if c = d then dropPrefixExact s p else none

/-- Exactly four ASCII digits. -/
def fourDigits : List Char → Bool
  | [a, b, c, d] => isPyDigit a && isPyDigit b && isPyDigit c && isPyDigit d
  | _ => false

/-- The period-label pattern exactly as the claim words it: a full English
month name, one single space, and a 4-digit year, nothing else. -/
def claimPatternC2 (s : String) : Bool :=
  monthNamesCap.any (fun m =>
    match dropPrefixExact s.data m.data with
    | some (' ' :: rest) => fourDigits rest
    | _ => false)

/-- The corrected period-label pattern: some split of the string into a chunk
that lowercases to a full month name, a nonempty run of whitespace, and four
digits that are not all zero (year at least 1). -/
def specMonthYear (s : String) : Prop :=
  ∃ p w y, s.data = p ++ w ++ y ∧
    (p.map Char.toLower) ∈ monthNames.map String.data ∧
    w ≠ [] ∧ (∀ c ∈ w, isPySpace c = true) ∧
    y.length = 4 ∧ (∀ c ∈ y, isPyDigit c = true) ∧ y ≠ ['0', '0', '0', '0']

/-- The claim's hypothesis for C1, decided on the input table: the fixed
sub-region (columns 3 through 8) cannot expose all six required fields, i.e.
the table is too narrow to supply them. -/
def missingRequiredAfterSelect (t : Table) : Bool :=
  t.cols < 8

/-- The selected, renamed, blank-dropped rows of the extraction pipeline: the
claim C7's notion of the non-blank data rows of the fixed sub-region. -/
def extractedRows (t : Table) : List (List Cell) :=
  ((t.rows.drop 6).map (fun r =>
    [r.getD 2 .na, r.getD 3 .na, r.getD 4 .na, r.getD 5 .na, r.getD 6 .na, r.getD 7 .na])).filter
    (fun r => r.any notna)

/-- The claim's one-step lenient coercion: a number stays itself, parseable
decimal text becomes its value, and anything missing or non-numeric becomes
the numeric zero. -/
def coercedValue : Cell → ℚ
  | .num q => q
  | .na => 0
  | .str s =>
      match parseSigned (pyStrip s).data with
      | some q => q
      | none => 0

/-- Claim C7's per-row contract: a row yields exactly one record when its
trimmed identifier is present and nonempty (otherwise it is skipped), with
the three numeric fields leniently coerced by `coercedValue`. -/
def specRecord (r : List Cell) : Option Entry :=
  if notna (r.getD 1 .na) && pyStrip (cellStr (r.getD 1 .na)) ≠ "" then
    some { name := pyStrip (cellStr (r.getD 0 .na))
         , isin := pyStrip (cellStr (r.getD 1 .na))
         , industry := pyStrip (cellStr (r.getD 2 .na))
         , quantity := coercedValue (r.getD 3 .na)
         , marketValueInLakhs := coercedValue (r.getD 4 .na)
         , pctToNAV := coercedValue (r.getD 5 .na) }
  else none

/-! ## Helper lemmas -/

/-- Writing a period then reading it back yields exactly the written list. -/
theorem snapGet_snapPut_self (s : Snapshot) (k : String) (v : List Entry) :
    snapGet (snapPut s k v) k = some v := by
  induction s with
  | nil => simp [snapPut, snapGet]
  | cons hd tl ih =>
    obtain ⟨k0, v0⟩ := hd
    by_cases h : k0 = k
    · simp [snapPut, h, snapGet]
    · simp [snapPut, h, snapGet, ih]

/-- The result built for an end-period entry carries that entry's fund
details, whatever its status. -/
theorem mkResult_details (startList : List Entry) (endItem : Entry) :
    (mkResult startList endItem).details = endItem.details := by
  unfold mkResult
  cases lastFor startList endItem.isin <;> rfl

/-- The two-step coercion of the pipeline (to_numeric, then
float-or-zero) equals the claim's one-step lenient coercion. -/
theorem numOrZero_toNumericCoerce (c : Cell) :
    numOrZero (toNumericCoerce c) = coercedValue c := by
  cases c with
  | na => rfl
  | num q => rfl
  | str s =>
    unfold toNumericCoerce coercedValue
    cases h : parseSigned (pyStrip s).data <;> simp [h, numOrZero]

/-- The per-row loop body applied to a coerced row equals the claim's
per-row contract on the raw row. -/
theorem mkEntry_coerceRow (r : List Cell) :
    mkEntry (coerceRow r) = specRecord r := by
  unfold mkEntry coerceRow specRecord
  simp [List.getD, numOrZero_toNumericCoerce]

/-- A filterMap whose function keeps exactly the elements passing a boolean
test is the filter followed by the map. -/
theorem filterMap_ite_eq_filter_map {α β : Type} (p : α → Bool) (f : α → β) :
    ∀ l : List α,
      (l.filterMap fun x => if p x then some (f x) else none) = (l.filter p).map f := by
  intro l
  induction l with
  | nil => rfl
  | cons hd tl ih =>
    by_cases h : p hd
    · simp [List.filterMap_cons, List.filter_cons, h, ih]
    · simp [List.filterMap_cons, List.filter_cons, h, ih]

/-- Every element taken by takeWhile satisfies the predicate. -/
theorem mem_takeWhile_pred (p : Char → Bool) :
    ∀ (l : List Char) (a : Char), a ∈ l.takeWhile p → p a = true := by
  intro l
  induction l with
  | nil => intro a h; simp [List.takeWhile] at h
  | cons hd tl ih =>
    intro a h
    rw [List.takeWhile_cons] at h
    by_cases hp : p hd
    · rw [if_pos hp] at h
      rcases List.mem_cons.mp h with rfl | h
      · exact hp
      · exact ih a h
    · rw [if_neg hp] at h
      simp at h

/-- dropWhile jumps over a block whose elements all satisfy the predicate. -/
theorem dropWhile_append_of_all (p : Char → Bool) :
    ∀ (w y : List Char), (∀ c ∈ w, p c = true) →
      (w ++ y).dropWhile p = y.dropWhile p := by
  intro w
  induction w with
  | nil => intro y _; rfl
  | cons hd tl ih =>
    intro y hall
    have hp : p hd = true := hall hd (List.mem_cons_self hd tl)
    rw [List.cons_append, List.dropWhile_cons, if_pos hp]
    exact ih y (fun c hc => hall c (List.mem_cons_of_mem hd hc))

/-- A digit character is not a whitespace character. -/
theorem digit_not_space (c : Char) (h : isPyDigit c = true) : isPySpace c = false := by
  by_contra hx
  have hsp : isPySpace c = true := by
    cases hy : isPySpace c
    · exact absurd hy hx
    · rfl
  have hd : c = ' ' ∨ c = '\t' ∨ c = '\n' ∨ c = '\r' ∨ c = '\x0b' ∨ c = '\x0c' := by
    simpa [isPySpace, Bool.or_eq_true, decide_eq_true_eq, or_assoc] using hsp
  rcases hd with rfl | rfl | rfl | rfl | rfl | rfl <;> exact absurd h (by decide)

/-- Stripping a case-insensitive prefix succeeds on any string that starts
with a chunk lowercasing to that prefix. -/
theorem dropPrefixCI_append : ∀ (p rest : List Char),
    dropPrefixCI (p ++ rest) (p.map Char.toLower) = some rest := by
  intro p
  induction p with
  | nil => intro rest; simp [dropPrefixCI]
  | cons hd tl ih => intro rest; simp [dropPrefixCI, ih]

/-- When stripping a case-insensitive prefix succeeds, the input splits into
a chunk lowercasing to the prefix followed by the remainder. -/
theorem dropPrefixCI_eq_some : ∀ (m s rest : List Char),
    dropPrefixCI s m = some rest → ∃ p, s = p ++ rest ∧ p.map Char.toLower = m := by
  intro m
  induction m with
  | nil =>
    intro s rest h
    simp only [dropPrefixCI, Option.some.injEq] at h
    exact ⟨[], by simp [h], rfl⟩
  | cons d p ih =>
    intro s rest h
    cases s with
    | nil => simp [dropPrefixCI] at h
    | cons c s2 =>
      unfold dropPrefixCI at h
      by_cases hc : c.toLower = d
      · rw [if_pos hc] at h
        obtain ⟨pre, h1, h2⟩ := ih s2 rest h
        exact ⟨c :: pre, by simp [h1], by simp [h2, hc]⟩
      · rw [if_neg hc] at h
        exact absurd h (by simp)

/-- A list of length four is an explicit four-element list. -/
theorem exists_four_of_length : ∀ (y : List Char), y.length = 4 →
    ∃ a b c d, y = [a, b, c, d] := by
  intro y h
  obtain - | ⟨a, y⟩ := y; · simp at h
  obtain - | ⟨b, y⟩ := y; · simp at h
  obtain - | ⟨c, y⟩ := y; · simp at h
  obtain - | ⟨d, y⟩ := y; · simp at h
  obtain - | ⟨e, y⟩ := y
  · exact ⟨a, b, c, d, rfl⟩
  · simp at h

/-- The year matcher on an explicit four-character list: all four are digits
and they are not all zero. -/
theorem yearDigits_explicit (a b c d : Char) :
    yearDigits [a, b, c, d] = true ↔
      (isPyDigit a = true ∧ isPyDigit b = true ∧ isPyDigit c = true ∧ isPyDigit d = true) ∧
        ¬(a = '0' ∧ b = '0' ∧ c = '0' ∧ d = '0') := by
  simp [yearDigits]
  tauto

/-- The year matcher accepts exactly the four-digit years other than 0000. -/
theorem yearDigits_iff (y : List Char) :
    yearDigits y = true ↔
      y.length = 4 ∧ (∀ c ∈ y, isPyDigit c = true) ∧ y ≠ ['0', '0', '0', '0'] := by
  constructor
  · intro h
    have h4 : y.length = 4 := by
      unfold yearDigits at h
      split at h
      · simp
      · simp at h
    obtain ⟨a, b, c, d, rfl⟩ := exists_four_of_length y h4
    obtain ⟨hdig, hz⟩ := (yearDigits_explicit a b c d).mp h
    refine ⟨rfl, ?_, ?_⟩
    · intro x hx
      simp only [List.mem_cons, List.not_mem_nil, or_false] at hx
      rcases hx with rfl | rfl | rfl | rfl
      exacts [hdig.1, hdig.2.1, hdig.2.2.1, hdig.2.2.2]
    · intro heq
      apply hz
      obtain ⟨rfl, rfl, rfl, rfl⟩ : a = '0' ∧ b = '0' ∧ c = '0' ∧ d = '0' := by
        simpa using heq
      exact ⟨rfl, rfl, rfl, rfl⟩
  · rintro ⟨h4, hdig, hz⟩
    obtain ⟨a, b, c, d, rfl⟩ := exists_four_of_length y h4
    apply (yearDigits_explicit a b c d).mpr
    refine ⟨⟨hdig a (by simp), hdig b (by simp), hdig c (by simp), hdig d (by simp)⟩, ?_⟩
    rintro ⟨rfl, rfl, rfl, rfl⟩
    exact hz rfl

/-- The tail matcher accepts exactly a nonempty whitespace run followed by an
accepted four-digit year. -/
theorem checkTail_iff (rest : List Char) :
    checkTail rest = true ↔
      ∃ w y, rest = w ++ y ∧ w ≠ [] ∧ (∀ c ∈ w, isPySpace c = true) ∧
        y.length = 4 ∧ (∀ c ∈ y, isPyDigit c = true) ∧ y ≠ ['0', '0', '0', '0'] := by
  constructor
  · intro h
    cases rest with
    | nil => simp [checkTail] at h
    | cons c r =>
      rw [checkTail, Bool.and_eq_true] at h
      obtain ⟨hc, hy⟩ := h
      rw [yearDigits_iff] at hy
      obtain ⟨h4, hdig, hz⟩ := hy
      refine ⟨c :: r.takeWhile isPySpace, r.dropWhile isPySpace, ?_, by simp, ?_, h4, hdig, hz⟩
      · rw [List.cons_append, List.takeWhile_append_dropWhile]
      · intro x hx
        rcases List.mem_cons.mp hx with rfl | hx
        · exact hc
        · exact mem_takeWhile_pred isPySpace r x hx
  · rintro ⟨w, y, rfl, hw, hws, h4, hdig, hz⟩
    cases w with
    | nil => exact absurd rfl hw
    | cons c w2 =>
      rw [List.cons_append, checkTail, Bool.and_eq_true]
      refine ⟨hws c (by simp), ?_⟩
      rw [dropWhile_append_of_all isPySpace w2 y (fun x hx => hws x (by simp [hx]))]
      obtain ⟨a, b, c2, d, rfl⟩ := exists_four_of_length y h4
      rw [List.dropWhile_cons, if_neg (by simp [digit_not_space a (hdig a (by simp))])]
      exact (yearDigits_iff _).mpr ⟨h4, hdig, hz⟩

/-- Decoding an encoded entry restores it. -/
theorem decodeEntry_encodeEntry (e : Entry) : decodeEntry (encodeEntry e) = some e := rfl

/-- Decoding an encoded entry list restores it. -/
theorem decodeEntryList_map (l : List Entry) :
    decodeEntryList (l.map encodeEntry) = some l := by
  induction l with
  | nil => rfl
  | cons hd tl ih => simp [decodeEntryList, decodeEntry_encodeEntry, ih]

/-- Decoding the encoded bindings restores the snapshot. -/
theorem decodePairs_map (s : Snapshot) :
    decodePairs (s.map fun p => (p.1, J.jarr (p.2.map encodeEntry))) = some s := by
  induction s with
  | nil => rfl
  | cons hd tl ih => simp [decodePairs, decodeEntryList_map, ih]

/-! ## Claims -/

/-- C1 (corrected): after the positional slice assigns the six canonical
column names, the structure check can never fail, so extraction never fails
with StructureError; an input table too narrow to supply the six required
fields (fewer than 8 columns) instead fails with the column-selection
IndexError. -/
theorem C1_theorem (t : Table) (label : String) (fe : Bool) :
    (validate_month_year label = true → fe = true → missingRequiredAfterSelect t = true →
      process_core fe t label = .error .indexError) ∧
    process_core fe t label ≠ .error .structureError := by
  constructor
  · intro hl hf hm
    have hc : t.cols < 8 := by simpa [missingRequiredAfterSelect] using hm
    simp [process_core, hl, hf, selectRegion, hc]
  · intro hcontra
    unfold process_core at hcontra
    split at hcontra
    · simp at hcontra
    · split at hcontra
      · simp at hcontra
      · split at hcontra
        next err heq =>
          unfold selectRegion at heq
          split at heq
          · rw [Except.error.injEq] at heq
            rw [← heq] at hcontra
            simp at hcontra
          · simp at heq
        next region heq =>
          rw [show validate_excel_structure assignedColumns = true from rfl] at hcontra
          simp only [Bool.not_true, Bool.false_eq_true, if_false] at hcontra
          split at hcontra <;> simp at hcontra

/-- C1 counterexample: a 3-column table, whose fixed sub-region cannot expose
the six required fields, makes extraction fail with IndexError, not
StructureError, refuting the claim as stated. -/
theorem C1_counterexample :
    missingRequiredAfterSelect ⟨3, [[Cell.str "x", Cell.str "y", Cell.str "z"]]⟩ = true ∧
    process_core true ⟨3, [[Cell.str "x", Cell.str "y", Cell.str "z"]]⟩ "January 2024" =
      .error .indexError ∧
    PErr.indexError ≠ PErr.structureError := by
  refine ⟨rfl, rfl, by simp⟩

/-- C1 witness: the amended theorem applied to a concrete 0-column table. -/
theorem C1_witness :
    process_core true ⟨0, []⟩ "February 2025" = .error .indexError ∧
    process_core true ⟨0, []⟩ "February 2025" ≠ .error .structureError :=
  ⟨(C1_theorem ⟨0, []⟩ "February 2025" true).1 (by decide) rfl (by decide),
   (C1_theorem ⟨0, []⟩ "February 2025" true).2⟩

/-- C2 (corrected): validate_month_year accepts exactly a full English month
name matched case-insensitively, then a nonempty run of whitespace, then a
four-digit year other than 0000 — not only the exact capitalized
single-space pattern the claim states. -/
theorem C2_theorem (s : String) :
    validate_month_year s = true ↔ specMonthYear s := by
  constructor
  · intro h
    rw [validate_month_year, List.any_eq_true] at h
    obtain ⟨m, hm, hmatch⟩ := h
    cases hdp : dropPrefixCI s.data m.data with
    | none => rw [hdp] at hmatch; simp at hmatch
    | some rest =>
      rw [hdp] at hmatch
      obtain ⟨p, hsplit, hlow⟩ := dropPrefixCI_eq_some m.data s.data rest hdp
      obtain ⟨w, y, hrest, hw, hws, h4, hdig, hz⟩ := (checkTail_iff rest).mp hmatch
      refine ⟨p, w, y, ?_, ?_, hw, hws, h4, hdig, hz⟩
      · rw [hsplit, hrest]
        exact (List.append_assoc p w y).symm
      · rw [hlow]
        exact List.mem_map_of_mem String.data hm
  · rintro ⟨p, w, y, hsplit, hmem, hw, hws, h4, hdig, hz⟩
    rw [validate_month_year, List.any_eq_true]
    obtain ⟨m, hm, hmdata⟩ := List.mem_map.mp hmem
    refine ⟨m, hm, ?_⟩
    rw [hsplit, List.append_assoc, hmdata, dropPrefixCI_append]
    exact (checkTail_iff (w ++ y)).mpr ⟨w, y, rfl, hw, hws, h4, hdig, hz⟩

/-- C2 counterexample: a double space between month and year validates though
the claim's exact pattern rejects it, and the well-formed four-digit string
January 0000 matches the claim's pattern but does not validate. -/
theorem C2_counterexample :
    validate_month_year "January  2024" = true ∧ claimPatternC2 "January  2024" = false ∧
    claimPatternC2 "January 0000" = true ∧ validate_month_year "January 0000" = false := by
  refine ⟨by decide, by decide, by decide, by decide⟩

/-- C2 witness: the amended characterization applied to a concrete lowercase
label. -/
theorem C2_witness : specMonthYear "march 2024" :=
  ( C2_theorem "march 2024").mp (by decide)

/-- C3 (confirmed): the compare body fails with the invalid-period error when
either label fails validation, and — with both labels valid — fails with the
period-not-found error when either period is absent from the store; in both
cases the typed failure is the whole outcome, before any change computation,
and the surrounding handler surfaces it to the caller. -/
theorem C3_theorem (snap : Snapshot) (q s e : String) :
    ((validate_month_year s && validate_month_year e) = false →
      search_core snap q s e = .error .invalidPeriod) ∧
    (validate_month_year s = true → validate_month_year e = true →
      snapGet snap s = none ∨ snapGet snap e = none →
      search_core snap q s e = .error .periodNotFound) := by
  constructor
  · intro h
    simp [search_core, h]
  · intro hs he habs
    unfold search_core
    rw [hs, he]
    simp only [Bool.and_self, Bool.not_true, Bool.false_eq_true, if_false]
    cases h1 : snapGet snap s with
    | none => cases h2 : snapGet snap e <;> rfl
    | some sl =>
      cases h2 : snapGet snap e with
      | none => rfl
      | some el =>
        rcases habs with h | h
        · rw [h1] at h; exact Option.noConfusion h
        · rw [h2] at h; exact Option.noConfusion h

/-- C3 witness: the theorem applied to an invalid label and to an empty
store. -/
theorem C3_witness :
    search_core [] "q" "Foo" "January 2024" = .error .invalidPeriod ∧
    search_core [] "q" "January 2024" "February 2024" = .error .periodNotFound :=
  ⟨(C3_theorem [] "q" "Foo" "January 2024").1 (by decide),
   (C3_theorem [] "q" "January 2024" "February 2024").2 (by decide) (by decide) (Or.inl rfl)⟩

/-- C4 (corrected): an import failing before the store update (validation,
file lookup, extraction) leaves the store untouched, and a successful
extraction replaces the period's binding wholesale — but when only the save
fails the import returns failure while the period's entry has already been
fully replaced in memory; in every case the entry is either exactly the old
content or exactly the new list, never a partial mix. -/
theorem C4_theorem (saveOk fe : Bool) (t : Table) (label : String) (snap : Snapshot) :
    (∀ err, process_core fe t label = .error err →
      process_excel_data saveOk fe t label snap = (false, snap)) ∧
    (∀ month_data, process_core fe t label = .ok month_data →
      (process_excel_data saveOk fe t label snap).2 = snapPut snap label month_data ∧
      snapGet (process_excel_data saveOk fe t label snap).2 label = some month_data ∧
      ((process_excel_data saveOk fe t label snap).1 = true ↔ saveOk = true)) ∧
    ((process_excel_data saveOk fe t label snap).2 = snap ∨
      ∃ month_data, process_core fe t label = .ok month_data ∧
        (process_excel_data saveOk fe t label snap).2 = snapPut snap label month_data) := by
  refine ⟨?_, ?_, ?_⟩
  · intro err h
    simp [process_excel_data, h]
  · intro md h
    simp only [process_excel_data, h]
    cases saveOk <;> simp [snapGet_snapPut_self]
  · cases hcore : process_core fe t label with
    | error err =>
      left
      simp [process_excel_data, hcore]
    | ok md =>
      right
      refine ⟨md, rfl, ?_⟩
      simp only [process_excel_data, hcore]
      cases saveOk <;> rfl

/-- C4 counterexample: with a failing save, the import reports failure yet
the period's previous content has been replaced by the newly extracted list,
refuting that any failure leaves the previous content untouched. -/
theorem C4_counterexample :
    (process_excel_data false true
        ⟨8, [[], [], [], [], [], [],
          [Cell.na, Cell.na, Cell.str "FundA", Cell.str "ISIN1", Cell.str "Tech",
           Cell.str "10", Cell.num 5, Cell.na]]⟩
        "January 2024" [("January 2024", [⟨"Old", "X9", "Y", 1, 1, 1⟩])]).1 = false ∧
    snapGet (process_excel_data false true
        ⟨8, [[], [], [], [], [], [],
          [Cell.na, Cell.na, Cell.str "FundA", Cell.str "ISIN1", Cell.str "Tech",
           Cell.str "10", Cell.num 5, Cell.na]]⟩
        "January 2024" [("January 2024", [⟨"Old", "X9", "Y", 1, 1, 1⟩])]).2 "January 2024" ≠
      some [⟨"Old", "X9", "Y", 1, 1, 1⟩] := by
  refine ⟨rfl, by decide⟩

/-- C4 witness: the amended theorem applied to a concrete failing import and
a concrete successful one. -/
theorem C4_witness :
    process_excel_data true true ⟨0, []⟩ "Bad" [] = (false, []) :=
  (C4_theorem true true ⟨0, []⟩ "Bad" []).1 .invalidPeriod rfl

/-- C5 (confirmed): a holding present (after last-write-wins keying) in both
periods and matching the name query is reported as Existing with, for each of
the three metrics, its start value, end value, and percent change computed as
(end - start) / start * 100 when the start value is nonzero and the None
no-baseline marker when the start value is zero. -/
theorem C5_theorem (snap : Snapshot) (q s e : String) (startList endList : List Entry)
    (results : List ChangeResult) (item st : Entry)
    (hok : search_core snap q s e = .ok results)
    (hs : snapGet snap s = some startList) (he : snapGet snap e = some endList)
    (hmem : item ∈ dictOfEntries endList)
    (hmatch : containsSub (strLower q).data (strLower item.name).data = true)
    (hlast : lastFor startList item.isin = some st) :
    ∃ r ∈ results, r.details = item.details ∧ r.status = .existing ∧
      r.changes =
        [("Quantity",
          { startValue := st.quantity, endValue := item.quantity
          , percentageChange :=
              if st.quantity ≠ 0 then
                some ((item.quantity - st.quantity) / st.quantity * 100) else none }),
         ("MarketValueInLakhs",
          { startValue := st.marketValueInLakhs, endValue := item.marketValueInLakhs
          , percentageChange :=
              if st.marketValueInLakhs ≠ 0 then
                some ((item.marketValueInLakhs - st.marketValueInLakhs) /
                  st.marketValueInLakhs * 100)
              else none }),
         ("%ToNAV",
          { startValue := st.pctToNAV, endValue := item.pctToNAV
          , percentageChange :=
              if st.pctToNAV ≠ 0 then
                some ((item.pctToNAV - st.pctToNAV) / st.pctToNAV * 100) else none })] := by
  unfold search_core at hok
  cases hv : (validate_month_year s && validate_month_year e) with
  | false => rw [hv] at hok; simp at hok
  | true =>
    rw [hv] at hok
    simp only [Bool.not_true, Bool.false_eq_true, if_false] at hok
    rw [hs, he] at hok
    rw [Except.ok.injEq] at hok
    refine ⟨mkResult startList item, ?_, mkResult_details startList item, ?_, ?_⟩
    · rw [← hok]
      exact List.mem_filterMap.mpr ⟨item, hmem, by rw [hmatch]; rfl⟩
    · simp [mkResult, hlast]
    · simp [mkResult, hlast, mkChange]

/-- C5 witness: the theorem applied to a concrete two-period store; the
quantity grows from 100 to 120, the market value from 50 to 66, and the NAV
share from 1 to 6/5. -/
theorem C5_witness :
    ∃ r ∈ [mkResult [⟨"Alpha Fund", "X1", "Tech", 100, 50, 1⟩]
              ⟨"Alpha Fund", "X1", "Tech", 120, 66, 2⟩],
      r.details = Entry.details ⟨"Alpha Fund", "X1", "Tech", 120, 66, 2⟩ ∧
      r.status = .existing ∧
      r.changes =
        [("Quantity",
          { startValue := (100 : ℚ), endValue := (120 : ℚ)
          , percentageChange :=
              if (100 : ℚ) ≠ 0 then some (((120 : ℚ) - 100) / 100 * 100) else none }),
         ("MarketValueInLakhs",
          { startValue := (50 : ℚ), endValue := (66 : ℚ)
          , percentageChange :=
              if (50 : ℚ) ≠ 0 then some (((66 : ℚ) - 50) / 50 * 100) else none }),
         ("%ToNAV",
          { startValue := (1 : ℚ), endValue := (2 : ℚ)
          , percentageChange :=
              if (1 : ℚ) ≠ 0 then some (((2 : ℚ) - 1) / 1 * 100) else none })] :=
  C5_theorem
    [("January 2024", [⟨"Alpha Fund", "X1", "Tech", 100, 50, 1⟩]),
     ("February 2024", [⟨"Alpha Fund", "X1", "Tech", 120, 66, 2⟩])]
    "alp" "January 2024" "February 2024"
    [⟨"Alpha Fund", "X1", "Tech", 100, 50, 1⟩]
    [⟨"Alpha Fund", "X1", "Tech", 120, 66, 2⟩]
    [mkResult [⟨"Alpha Fund", "X1", "Tech", 100, 50, 1⟩]
      ⟨"Alpha Fund", "X1", "Tech", 120, 66, 2⟩]
    ⟨"Alpha Fund", "X1", "Tech", 120, 66, 2⟩
    ⟨"Alpha Fund", "X1", "Tech", 100, 50, 1⟩
    rfl rfl rfl (List.mem_cons_self _ _) (by decide) rfl

/-- C6 (confirmed): the JSON document saved for any snapshot decodes back to
exactly that snapshot — loading what was saved loses nothing. -/
theorem C6_theorem (snap : Snapshot) :
    decodeSnapshot (_load_data (some (some (_save_data snap)))) = some snap := by
  show decodeSnapshot (_save_data snap) = some snap
  unfold _save_data decodeSnapshot
  exact decodePairs_map snap

/-- C7 (confirmed): a successful extraction emits exactly one record per
non-blank selected row whose trimmed identifier is present and nonempty
(rows with a missing or blank-trimming identifier are silently skipped), and
each record's three numeric fields are the lenient coercion sending missing
or non-numeric values to zero. -/
theorem C7_theorem (t : Table) (label : String) (fe : Bool)
    (hcols : 8 ≤ t.cols) (hl : validate_month_year label = true) (hfe : fe = true)
    (hne : (extractedRows t).filterMap specRecord ≠ []) :
    process_core fe t label = .ok ((extractedRows t).filterMap specRecord) := by
  have hreg : selectRegion t = .ok ((t.rows.drop 6).map (fun r =>
      [r.getD 2 .na, r.getD 3 .na, r.getD 4 .na, r.getD 5 .na, r.getD 6 .na, r.getD 7 .na])) := by
    unfold selectRegion
    rw [if_neg (by omega)]
  have hxy : ((((t.rows.drop 6).map (fun r =>
      [r.getD 2 .na, r.getD 3 .na, r.getD 4 .na, r.getD 5 .na, r.getD 6 .na, r.getD 7 .na])).filter
        (fun r => r.any notna)).map coerceRow).filterMap mkEntry =
      (extractedRows t).filterMap specRecord := by
    rw [List.filterMap_map, show mkEntry ∘ coerceRow = specRecord from funext mkEntry_coerceRow]
    rfl
  unfold process_core
  simp only [hl, hfe, Bool.not_true, Bool.false_eq_true, if_false, hreg]
  rw [show validate_excel_structure assignedColumns = true from rfl]
  simp only [Bool.not_true, Bool.false_eq_true, if_false]
  rw [hxy]
  cases hml : (extractedRows t).filterMap specRecord with
  | nil => exact absurd hml hne
  | cons a l => rfl

/-- C7 witness: the theorem applied to a table with an all-blank row (dropped
silently), a blank-identifier row (skipped silently), and a kept row whose
non-numeric quantity and missing market value coerce to zero. -/
theorem C7_witness :
    process_core true
        ⟨8, [[], [], [], [], [], [],
          [Cell.na, Cell.na, Cell.na, Cell.na, Cell.na, Cell.na, Cell.na, Cell.na],
          [Cell.na, Cell.na, Cell.str "Skip", Cell.str "  ", Cell.str "I", Cell.num 1,
           Cell.num 2, Cell.num 3],
          [Cell.na, Cell.na, Cell.str " Good ", Cell.str "X1", Cell.na, Cell.str "abc",
           Cell.na, Cell.num 3]]⟩
        "January 2024" =
      .ok ((extractedRows
        ⟨8, [[], [], [], [], [], [],
          [Cell.na, Cell.na, Cell.na, Cell.na, Cell.na, Cell.na, Cell.na, Cell.na],
          [Cell.na, Cell.na, Cell.str "Skip", Cell.str "  ", Cell.str "I", Cell.num 1,
           Cell.num 2, Cell.num 3],
          [Cell.na, Cell.na, Cell.str " Good ", Cell.str "X1", Cell.na, Cell.str "abc",
           Cell.na, Cell.num 3]]⟩).filterMap specRecord) :=
  C7_theorem _ "January 2024" true (by decide) (by decide) rfl (by decide)

/-- C8 (confirmed): an end-period holding (after last-write-wins keying)
matching the name query whose identity key is absent from the start-period
lookup is reported with status New Addition and an empty changes mapping. -/
theorem C8_theorem (snap : Snapshot) (q s e : String) (startList endList : List Entry)
    (results : List ChangeResult) (item : Entry)
    (hok : search_core snap q s e = .ok results)
    (hs : snapGet snap s = some startList) (he : snapGet snap e = some endList)
    (hmem : item ∈ dictOfEntries endList)
    (hmatch : containsSub (strLower q).data (strLower item.name).data = true)
    (hlast : lastFor startList item.isin = none) :
    ∃ r ∈ results, r.details = item.details ∧ r.status = .newAddition ∧ r.changes = [] := by
  unfold search_core at hok
  cases hv : (validate_month_year s && validate_month_year e) with
  | false => rw [hv] at hok; simp at hok
  | true =>
    rw [hv] at hok
    simp only [Bool.not_true, Bool.false_eq_true, if_false] at hok
    rw [hs, he] at hok
    rw [Except.ok.injEq] at hok
    refine ⟨mkResult startList item, ?_, mkResult_details startList item, ?_, ?_⟩
    · rw [← hok]
      exact List.mem_filterMap.mpr ⟨item, hmem, by rw [hmatch]; rfl⟩
    · simp [mkResult, hlast]
    · simp [mkResult, hlast]

/-- C8 witness: the theorem applied to a store whose end period holds a fund
absent from the start period. -/
theorem C8_witness :
    ∃ r ∈ [mkResult [⟨"Beta", "X2", "T", 1, 1, 1⟩] ⟨"Gamma Fund", "X3", "T", 2, 2, 2⟩],
      r.details = Entry.details ⟨"Gamma Fund", "X3", "T", 2, 2, 2⟩ ∧
      r.status = .newAddition ∧ r.changes = [] :=
  C8_theorem
    [("January 2024", [⟨"Beta", "X2", "T", 1, 1, 1⟩]),
     ("February 2024", [⟨"Gamma Fund", "X3", "T", 2, 2, 2⟩])]
    "gam" "January 2024" "February 2024"
    [⟨"Beta", "X2", "T", 1, 1, 1⟩] [⟨"Gamma Fund", "X3", "T", 2, 2, 2⟩]
    [mkResult [⟨"Beta", "X2", "T", 1, 1, 1⟩] ⟨"Gamma Fund", "X3", "T", 2, 2, 2⟩]
    ⟨"Gamma Fund", "X3", "T", 2, 2, 2⟩
    rfl rfl rfl (List.mem_cons_self _ _) (by decide) rfl

/-- C9 (confirmed): the result list is exactly the last-write-wins
deduplicated end-period holdings whose name contains the query
case-insensitively, each mapped to its change report — so every result's
name matches and no matching holding is omitted. -/
theorem C9_theorem (snap : Snapshot) (q s e : String) (startList endList : List Entry)
    (results : List ChangeResult)
    (hok : search_core snap q s e = .ok results)
    (hs : snapGet snap s = some startList) (he : snapGet snap e = some endList) :
    results = ((dictOfEntries endList).filter
        (fun it => containsSub (strLower q).data (strLower it.name).data)).map
        (mkResult startList) ∧
    ∀ r ∈ results, containsSub (strLower q).data (strLower r.details.name).data = true := by
  unfold search_core at hok
  cases hv : (validate_month_year s && validate_month_year e) with
  | false => rw [hv] at hok; simp at hok
  | true =>
    rw [hv] at hok
    simp only [Bool.not_true, Bool.false_eq_true, if_false] at hok
    rw [hs, he] at hok
    rw [Except.ok.injEq] at hok
    have hres : results = ((dictOfEntries endList).filter
        (fun it => containsSub (strLower q).data (strLower it.name).data)).map
        (mkResult startList) := by
      rw [← hok]
      exact filterMap_ite_eq_filter_map
        (fun it => containsSub (strLower q).data (strLower it.name).data)
        (mkResult startList) (dictOfEntries endList)
    refine ⟨hres, ?_⟩
    intro r hr
    rw [hres] at hr
    obtain ⟨it, hit, rfl⟩ := List.mem_map.mp hr
    have hmatch := (List.mem_filter.mp hit).2
    rw [mkResult_details]
    exact hmatch

/-- C9 witness: the theorem applied to an end period holding one matching and
one non-matching fund. -/
theorem C9_witness :
    [mkResult [] ⟨"Alpha", "A1", "T", 1, 1, 1⟩] =
      ((dictOfEntries [⟨"Alpha", "A1", "T", 1, 1, 1⟩, ⟨"Beta", "B1", "T", 2, 2, 2⟩]).filter
        (fun it => containsSub (strLower "alp").data (strLower it.name).data)).map
        (mkResult []) ∧
    ∀ r ∈ [mkResult [] ⟨"Alpha", "A1", "T", 1, 1, 1⟩],
      containsSub (strLower "alp").data (strLower r.details.name).data = true :=
  C9_theorem
    [("January 2024", []),
     ("February 2024", [⟨"Alpha", "A1", "T", 1, 1, 1⟩, ⟨"Beta", "B1", "T", 2, 2, 2⟩])]
    "alp" "January 2024" "February 2024"
    [] [⟨"Alpha", "A1", "T", 1, 1, 1⟩, ⟨"Beta", "B1", "T", 2, 2, 2⟩]
    [mkResult [] ⟨"Alpha", "A1", "T", 1, 1, 1⟩]
    rfl rfl rfl

/-- C10 (confirmed): both public operations wrap their body in a handler
that converts every internal typed failure into a plain sentinel return —
the import always returns a boolean (false on any failure) with a
well-defined store, and the search always returns either the result list or
None, never propagating an exception. -/
theorem C10_theorem (saveOk fe : Bool) (t : Table) (label : String) (snap : Snapshot)
    (q s e : String) :
    (∀ err, process_core fe t label = .error err →
      process_excel_data saveOk fe t label snap = (false, snap)) ∧
    (∀ md, process_core fe t label = .ok md →
      process_excel_data saveOk fe t label snap =
        (if saveOk then true else false, snapPut snap label md)) ∧
    (∀ err, search_core snap q s e = .error err →
      search_and_calculate_changes snap q s e = none) ∧
    (∀ res, search_core snap q s e = .ok res →
      search_and_calculate_changes snap q s e = some res) := by
  refine ⟨?_, ?_, ?_, ?_⟩
  · intro err h
    simp [process_excel_data, h]
  · intro md h
    simp only [process_excel_data, h]
    cases saveOk <;> rfl
  · intro err h
    simp [search_and_calculate_changes, h]
  · intro res h
    simp [search_and_calculate_changes, h]

/-- C10 witness: the theorem applied to a concrete invalid import and a
concrete search over missing periods, both of which return the sentinel. -/
theorem C10_witness :
    process_excel_data true true ⟨2, [[Cell.num 1, Cell.num 2]]⟩ "Nope" [] = (false, []) ∧
    search_and_calculate_changes [] "x" "January 2024" "March 2024" = none :=
  ⟨(C10_theorem true true ⟨2, [[Cell.num 1, Cell.num 2]]⟩ "Nope" [] "x" "January 2024"
      "March 2024").1 .invalidPeriod rfl,
   (C10_theorem true true ⟨2, [[Cell.num 1, Cell.num 2]]⟩ "Nope" [] "x" "January 2024"
      "March 2024").2.2.1 .periodNotFound rfl⟩

end Tracker
